import Mathlib

/-
Verification of the GoLangfuse asynchronous event-delivery pipeline.

The definitions below are a shallow embedding of the Go source:
  * errors.go            — structured errors, `IsRetryable`, `NewHTTPError`
  * client.go            — `sendEventWithRetry`, `getEventType`, `Send` prefix
  * langfuse.go          — `AddEvent`, `processBatches`, `sendBatch`, `Stop`
  * metrics (part_012)   — `RecordHTTPRequest`, `CheckHealth`

Machine integers (Go `int`, `int64`, `time.Duration`) are embedded as `Int`
or `Nat`; durations are nanosecond counts.  Threshold comparisons that Go
performs on `float64` ratios (`queueSize/queueCapacity > 0.9`, …) are
embedded as the exact cross-multiplied integer comparisons; the operands are
small counters, and at a zero denominator the cross-multiplied form agrees
with Go's IEEE semantics (`x/0 = +Inf` for `x > 0` is above every threshold,
`0/0 = NaN` compares false against every threshold).
-/

namespace GoLangfuse

/-- Error category, `ErrorType` in errors.go. -/
inductive ErrorType where
  | config
  | validation
  | network
  | api
  | processing
deriving DecidableEq, Repr

/-- Structured error, `LangfuseError` in the client source (errors.go).
The `Details` map and the wrapped `Cause` are dropped: neither influences
any control flow of the pipeline. -/
structure LangfuseError where
  code : String
  message : String
  type : ErrorType
  statusCode : Int := 0
deriving DecidableEq, Repr

/-- errors.go: `ErrMissingURL`. -/
def ErrMissingURL : LangfuseError :=
  { code := "MISSING_URL", message := "langfuse URL is required", type := .config }

/-- errors.go: `ErrUnknownEventType`. -/
def ErrUnknownEventType : LangfuseError :=
  { code := "UNKNOWN_EVENT_TYPE", message := "unknown event type", type := .validation }

/-- errors.go: `ErrEventValidation`. -/
def ErrEventValidation : LangfuseError :=
  { code := "EVENT_VALIDATION", message := "event validation failed", type := .validation }

/-- errors.go: `ErrNetworkTimeout`. -/
def ErrNetworkTimeout : LangfuseError :=
  { code := "NETWORK_TIMEOUT", message := "network request timed out", type := .network }

/-- errors.go: `ErrConnectionFailed`. -/
def ErrConnectionFailed : LangfuseError :=
  { code := "CONNECTION_FAILED", message := "failed to connect to langfuse", type := .network }

/-- errors.go: `ErrRequestFailed`. -/
def ErrRequestFailed : LangfuseError :=
  { code := "REQUEST_FAILED", message := "HTTP request failed", type := .network }

/-- errors.go: `ErrAPIUnauthorized`. -/
def ErrAPIUnauthorized : LangfuseError :=
  { code := "UNAUTHORIZED", message := "unauthorized access to langfuse API", type := .api }

/-- errors.go: `ErrAPIForbidden`. -/
def ErrAPIForbidden : LangfuseError :=
  { code := "FORBIDDEN", message := "forbidden access to langfuse resource", type := .api }

/-- errors.go: `ErrAPINotFound`. -/
def ErrAPINotFound : LangfuseError :=
  { code := "NOT_FOUND", message := "langfuse resource not found", type := .api }

/-- errors.go: `ErrAPIRateLimit`. -/
def ErrAPIRateLimit : LangfuseError :=
  { code := "RATE_LIMIT", message := "langfuse API rate limit exceeded", type := .api }

/-- errors.go: `ErrAPIServerError`. -/
def ErrAPIServerError : LangfuseError :=
  { code := "SERVER_ERROR", message := "langfuse server error", type := .api }

/-- errors.go: `ErrBatchProcessing`. -/
def ErrBatchProcessing : LangfuseError :=
  { code := "BATCH_PROCESSING", message := "batch processing failed", type := .processing }

/-- errors.go: `ErrEventProcessing`. -/
def ErrEventProcessing : LangfuseError :=
  { code := "EVENT_PROCESSING", message := "event processing failed", type := .processing }

/-- errors.go: `WithStatusCode` — copy-on-write update of the status code. -/
def LangfuseError.WithStatusCode (e : LangfuseError) (statusCode : Int) : LangfuseError :=
  { e with statusCode := statusCode }

/-- errors.go: `IsRetryable`.  Network errors are always retryable; API
errors are retryable exactly for status ≥ 500 (`httpServerErrorStart`) or
status = 429 (`http.StatusTooManyRequests`); all other categories are not. -/
def LangfuseError.IsRetryable (e : LangfuseError) : Bool :=
  match e.type with
  | .network => true
  | .api => decide (500 ≤ e.statusCode) || decide (e.statusCode = 429)
  | _ => false

/-- errors.go: `NewHTTPError` — classifies an HTTP response status code.
The switch cases use the literal values of the `net/http` constants
(401 Unauthorized, 403 Forbidden, 404 NotFound, 429 TooManyRequests,
500/502/503 server errors).  The Go version stores the response body in the
`Details` map, which the embedding drops. -/
def NewHTTPError (statusCode : Int) (_message : String) : LangfuseError :=
  let baseErr : LangfuseError :=
    if statusCode = 401 then ErrAPIUnauthorized
    else if statusCode = 403 then ErrAPIForbidden
    else if statusCode = 404 then ErrAPINotFound
    else if statusCode = 429 then ErrAPIRateLimit
    else if statusCode = 500 ∨ statusCode = 502 ∨ statusCode = 503 then ErrAPIServerError
    else if 400 ≤ statusCode ∧ statusCode < 500 then
      { code := "CLIENT_ERROR", message := "client error", type := .api }
    else if 500 ≤ statusCode then
      { code := "SERVER_ERROR", message := "server error", type := .api }
    else
      { code := "HTTP_ERROR", message := "HTTP error", type := .network }
  baseErr.WithStatusCode statusCode

/-- Body of the `/api/public/ingestion` response (`ingestionResponse` in the
client source); only the per-event error list matters to the pipeline. -/
structure ingestionResponse where
  errors : List String := []
deriving DecidableEq, Repr

/-- Result of one `sendEventWithRetry` call: `success resp` is the
`(resp, nil)` return, `ctxCancelled` is the `(nil, ctx.Err())` return from
inside the backoff select, and `failed lastErr` is the final
`(nil, ErrRequestFailed.WithCause(lastErr))` return. -/
inductive RetryOutcome where
  | success (resp : ingestionResponse)
  | ctxCancelled
  | failed (lastErr : Option LangfuseError)
deriving DecidableEq, Repr

/-- Observable trace of one `sendEventWithRetry` call: its outcome, the
number of `sendEvent` attempts actually performed, and the backoff delays
(in nanoseconds) actually waited, in order. -/
structure RetryTrace where
  outcome : RetryOutcome
  attempts : Nat
  delays : List Nat
deriving DecidableEq, Repr

/-- Loop body of client `sendEventWithRetry` (client.go / part_006, lines
205–243), one recursive step per iteration of `for i := 0; i <= MaxRetries;
i++`.  `fuel` is the number of loop iterations left (`MaxRetries + 1 - i`),
`i` the loop counter, `lastErr` the running `lastErr` variable.  The network
behaviour is an oracle: `send j` is the outcome of the `sendEvent` call on
the j-th attempt, and `cancelled i` tells whether the call's context is done
during the backoff wait preceding retry `i` (the `select` on `ctx.Done()`
versus `time.After(delay)`).  The Go delay
`time.Duration(math.Pow(2, float64(i-1))) * RetryDelay` is the integer
`RetryDelay * 2^(i-1)` nanoseconds (powers of two are exact in `float64`
over the reachable range). -/
def sendEventWithRetryAux (retryDelay : Nat)
    (send : Nat → Except LangfuseError ingestionResponse)
    (cancelled : Nat → Bool)
    (fuel : Nat) (i : Nat) (lastErr : Option LangfuseError)
    (delays : List Nat) (attempts : Nat) : RetryTrace :=
  match fuel with
  | 0 => ⟨.failed lastErr, attempts, delays.reverse⟩
  | f + 1 =>
    if 0 < i ∧ cancelled i = true then
      ⟨.ctxCancelled, attempts, delays.reverse⟩
    else
      let delays1 := if 0 < i then (retryDelay * 2 ^ (i - 1)) :: delays else delays
      match send i with
      | .ok resp => ⟨.success resp, attempts + 1, delays1.reverse⟩
      | .error e =>
        if e.IsRetryable then
          sendEventWithRetryAux retryDelay send cancelled f (i + 1) (some e) delays1 (attempts + 1)
        else
          ⟨.failed (some e), attempts + 1, delays1.reverse⟩

/-- client `sendEventWithRetry`: run the retry loop from `i = 0` with
`MaxRetries + 1` iterations available. -/
def sendEventWithRetry (maxRetries retryDelay : Nat)
    (send : Nat → Except LangfuseError ingestionResponse)
    (cancelled : Nat → Bool) : RetryTrace :=
  sendEventWithRetryAux retryDelay send cancelled (maxRetries + 1) 0 none [] 0

/-- The event payloads of types/: an implementation of the
`types.LangfuseEvent` interface is one of the four concrete structs, or any
other dynamic type (`unknownEvent`), which `getEventType` maps to
"unknown".  The struct fields play no role in the pipeline's control flow;
a numeric id stands for the payload. -/
inductive LangfuseEvent where
  | traceEvent (id : Nat)
  | spanEvent (id : Nat)
  | generationEvent (id : Nat)
  | scoreEvent (id : Nat)
  | unknownEvent (id : Nat)
deriving DecidableEq, Repr

/-- client `getEventType` (part_006, lines 346–358): the type switch over
the payload's concrete variant. -/
def getEventType : LangfuseEvent → String
  | .traceEvent _ => "trace-create"
  | .generationEvent _ => "generation-create"
  | .spanEvent _ => "span-create"
  | .scoreEvent _ => "score-create"
  | .unknownEvent _ => "unknown"

/-- langfuse.go `AddEvent` (lines 155–160), effect on the event channel's
buffer: `ensureEventID(event); l.eventChannel <- ...` — the event is
appended unconditionally, with no check of its type. -/
def AddEvent (queue : List LangfuseEvent) (event : LangfuseEvent) : List LangfuseEvent :=
  queue ++ [event]

/-- The pre-transport checks of client `Send` (part_006, lines 102–118), in
source order: the empty-URL check (`urlEmpty` stands for
`strings.TrimSpace(c.config.URL) == ""`), then the "unknown" event-type
check, then `govalidator.ValidateStruct` (an external validator, modelled
as the oracle `validationOk`).  `none` means `Send` proceeds to build the
request and call `sendEventWithRetry`. -/
def clientSendChecks (urlEmpty : Bool) (event : LangfuseEvent) (validationOk : Bool) :
    Option LangfuseError :=
  if urlEmpty then some ErrMissingURL
  else if getEventType event = "unknown" then some ErrUnknownEventType
  else if validationOk = false then some ErrEventValidation
  else none

/-- Outcome of the pre-transport phase of client `SendBatch` (part_006,
lines 147–186): an error returned before any transport attempt, the
`len(events) == 0` early `nil` return (also without transport), or
fall-through to building the request and calling `sendEventWithRetry`. -/
inductive SendBatchCheckResult where
  | rejected (err : LangfuseError)
  | emptyNoop
  | proceed (events : List LangfuseEvent)
deriving DecidableEq, Repr

/-- The "Validate all events first" loop of client `SendBatch` (part_006,
lines 159–182), in order: for each event, the "unknown" type check, then
`govalidator.ValidateStruct` (oracle `validationOk`); the first failure is
returned (`ErrUnknownEventType` / `ErrEventValidation`, whose
`event_index` detail the embedding drops). -/
def validateEvents (validationOk : LangfuseEvent → Bool) :
    List LangfuseEvent → Option LangfuseError
  | [] => none
  | ev :: rest =>
    if getEventType ev = "unknown" then some ErrUnknownEventType
    else if validationOk ev = false then some ErrEventValidation
    else validateEvents validationOk rest

/-- The pre-transport phase of client `SendBatch` (part_006, lines
147–186), in source order: empty-URL check, empty-batch early return, then
the per-event validation loop.  `proceed` carries the validated events (the
Go code wraps them in envelopes with ID/type/timestamp, which the embedding
drops) on their way to `sendEventWithRetry`. -/
def clientSendBatchChecks (urlEmpty : Bool) (validationOk : LangfuseEvent → Bool)
    (events : List LangfuseEvent) : SendBatchCheckResult :=
  if urlEmpty then .rejected ErrMissingURL
  else if events = [] then .emptyNoop
  else
    match validateEvents validationOk events with
    | some err => .rejected err
    | none => .proceed events

/-- One element of the `eventChannel` buffer (`eventChanItem` in
langfuse.go): the submitted event plus its submission context, where the
context is identified by a number (the map key identity that
`processBatches` groups by). -/
structure EventChanItem where
  ctx : Nat
  event : LangfuseEvent
deriving DecidableEq, Repr

/-- What a worker's `select` observes at one iteration of `processBatches`
(langfuse.go, lines 206–233): an item received from `eventChannel`, the
channel reporting closed-and-drained (`ok == false`), a `ticker` tick, or
the `stopChannel` case. -/
inductive WorkerStep where
  | item (it : EventChanItem)
  | chanDrained
  | tick
  | stop
deriving DecidableEq, Repr

/-- The context-grouping of `flushBatch` (langfuse.go, lines 192–201):
partition the pending batch by context identity; each group becomes one
`l.sendBatch(ctx, events)` call.  Go iterates the map in arbitrary order;
the embedding fixes first-appearance order, which leaves each group's
content unchanged. -/
def groupByCtx (batch : List EventChanItem) : List (Nat × List LangfuseEvent) :=
  ((batch.map EventChanItem.ctx).dedup).map
    (fun c => (c, (batch.filter (fun it => it.ctx == c)).map EventChanItem.event))

/-- langfuse.go `flushBatch` (lines 187–204): an empty pending batch is not
sent; otherwise each context group goes to `sendBatch`. -/
def flushBatchSends (batch : List EventChanItem) : List (Nat × List LangfuseEvent) :=
  if batch = [] then [] else groupByCtx batch

/-- One worker's `processBatches` loop (langfuse.go, lines 206–233), run
against a sequence of select observations; returns the batches handed to
`sendBatch` (and so to the client's `SendBatch`), in order.  On `item`, the
event is appended and the batch flushed once `BatchSize` is reached; `tick`
flushes; a closed channel or the stop signal flushes and terminates the
loop (any remaining observations are ignored, as the Go worker has
returned). -/
def processBatchesRun (batchSize : Nat) :
    List WorkerStep → List EventChanItem → List (Nat × List LangfuseEvent)
  | [], _ => []
  | step :: rest, batch =>
    match step with
    | .item it =>
      let b := batch ++ [it]
      if batchSize ≤ b.length then
        flushBatchSends b ++ processBatchesRun batchSize rest []
      else
        processBatchesRun batchSize rest b
    | .tick => flushBatchSends batch ++ processBatchesRun batchSize rest []
    | .chanDrained => flushBatchSends batch
    | .stop => flushBatchSends batch

/-- A call the service makes on the injected `Client` interface. -/
inductive ClientCall where
  | sendBatchCall (events : List LangfuseEvent)
  | sendCall (event : LangfuseEvent)
deriving DecidableEq, Repr

/-- The fallback loop of service `sendBatch` (langfuse.go, lines 245–249):
`for _, event := range events { if sendErr := l.client.Send(ctx, event);
sendErr != nil { log } }` — one `Send` call per event; an individual
failure is only logged, and the loop continues with the next event. -/
def fallbackLoop (clientSend : LangfuseEvent → Option LangfuseError)
    (events : List LangfuseEvent) : List ClientCall :=
  match events with
  | [] => []
  | ev :: rest =>
    let _sendErr := clientSend ev
    ClientCall.sendCall ev :: fallbackLoop clientSend rest

/-- Service `sendBatch` (langfuse.go, lines 236–251), as the sequence of
client calls it performs: one `SendBatch` of the whole group, then — only
when that call returned an error — the per-event fallback loop.
`clientSendBatch` and `clientSend` are oracles for the injected client's
results. -/
def serviceSendBatch (clientSendBatch : List LangfuseEvent → Option LangfuseError)
    (clientSend : LangfuseEvent → Option LangfuseError)
    (events : List LangfuseEvent) : List ClientCall :=
  ClientCall.sendBatchCall events ::
    (match clientSendBatch events with
     | none => []
     | some _ => fallbackLoop clientSend events)

/-- State of a `langfuseService` with one batch processor
(`NumberOfEventProcessor = 1`): the `eventChannel` buffer and closed flag,
the `stopChannel` closed flag, the worker's pending batch and whether the
worker goroutine has returned (its `wg.Done` has run), the set of events
that have been handed to a client send call, and whether `Stop` has
returned `nil`. -/
structure ServiceState where
  queue : List LangfuseEvent
  chanClosed : Bool
  stopClosed : Bool
  workerBatch : List LangfuseEvent
  workerDone : Bool
  attempted : List LangfuseEvent
  stopReturnedNil : Bool
deriving DecidableEq, Repr

/-- The freshly constructed service: empty channel, nothing closed, worker
running with an empty batch. -/
def initialService : ServiceState :=
  { queue := [], chanClosed := false, stopClosed := false, workerBatch := [],
    workerDone := false, attempted := [], stopReturnedNil := false }

/-- An atomic step of the service, chosen by the scheduler.  `workerRecv`,
`workerRecvClosed`, `workerTick` and `workerStop` are the four ways the
worker's `select` can fire; Go's `select` picks any case that is ready, so
`workerStop` is enabled whenever `stopChannel` is closed — even while
buffered events remain in `eventChannel`. -/
inductive ServiceAct where
  | addEvent (ev : LangfuseEvent)
  | callStop
  | workerRecv
  | workerRecvClosed
  | workerTick
  | workerStop
  | stopReturn
deriving DecidableEq, Repr

/-- Result of one step: the next state, a Go runtime panic, or an action
that is not enabled in this state (the goroutine would block, or `Stop`'s
`wg.Wait` has not released). -/
inductive StepResult where
  | ok (s : ServiceState)
  | panicked
  | notEnabled
deriving DecidableEq, Repr

/-- The service's transition function.
  * `addEvent ev` — `AddEvent` (langfuse.go 155–160): an unguarded
    `l.eventChannel <- item`; sending on a closed channel panics (Go
    runtime semantics).  Capacity backpressure (512) is not modelled: the
    claims all stay below it.
  * `callStop` — `Stop` (langfuse.go 254–279) first closes `stopChannel`
    and then `eventChannel` (closing a closed channel also panics).
  * `workerRecv` — the select's `case item, ok := <-l.eventChannel` with a
    buffered item: append to the batch, flush at `BatchSize`.
  * `workerRecvClosed` — the same case with `ok == false`, ready only once
    the channel is closed and drained: final flush, worker returns.
  * `workerTick` — `case <-ticker.C`: flush.
  * `workerStop` — `case <-l.stopChannel`, ready whenever `stopChannel` is
    closed: flush the pending batch and return.
  * `stopReturn` — `Stop`'s `wg.Wait` completes (the worker returned) and
    `Stop` returns `nil`. -/
def serviceStep (batchSize : Nat) (s : ServiceState) : ServiceAct → StepResult
  | .addEvent ev =>
    if s.chanClosed then .panicked
    else .ok { s with queue := s.queue ++ [ev] }
  | .callStop =>
    if s.stopClosed ∨ s.chanClosed then .panicked
    else .ok { s with stopClosed := true, chanClosed := true }
  | .workerRecv =>
    if s.workerDone then .notEnabled
    else
      match s.queue with
      | [] => .notEnabled
      | ev :: rest =>
        let b := s.workerBatch ++ [ev]
        if batchSize ≤ b.length then
          .ok { s with queue := rest, workerBatch := [], attempted := s.attempted ++ b }
        else
          .ok { s with queue := rest, workerBatch := b }
  | .workerRecvClosed =>
    if s.workerDone = false ∧ s.chanClosed = true ∧ s.queue = [] then
      .ok { s with workerBatch := [], attempted := s.attempted ++ s.workerBatch,
                   workerDone := true }
    else .notEnabled
  | .workerTick =>
    if s.workerDone then .notEnabled
    else .ok { s with workerBatch := [], attempted := s.attempted ++ s.workerBatch }
  | .workerStop =>
    if s.workerDone = false ∧ s.stopClosed = true then
      .ok { s with workerBatch := [], attempted := s.attempted ++ s.workerBatch,
                   workerDone := true }
    else .notEnabled
  | .stopReturn =>
    if s.stopClosed = true ∧ s.workerDone = true then
      .ok { s with stopReturnedNil := true }
    else .notEnabled

/-- Run a scheduled sequence of steps, propagating a panic and stopping at
a step that is not enabled. -/
def serviceRun (batchSize : Nat) : List ServiceAct → ServiceState → StepResult
  | [], s => .ok s
  | a :: rest, s =>
    match serviceStep batchSize s a with
    | .ok s1 => serviceRun batchSize rest s1
    | r => r

/-- Component health values (part_012): `cmpHealthHealthy`, … -/
inductive ComponentHealth where
  | healthy
  | warning
  | critical
  | unknown
deriving DecidableEq, Repr

/-- Overall health values (part_012): `healthStatusHealthy`, … -/
inductive OverallStatus where
  | healthy
  | degraded
  | starting
  | unhealthy
  | unknown
deriving DecidableEq, Repr

/-- The slice of the `Metrics` struct that `CheckHealth` reads.  Counters
are Go `int64`/`int` values; `recentErrorWithin5Min` stands for
`LastErrorAt != nil && now.Sub(*LastErrorAt) < 5*time.Minute` (wall-clock
time is an oracle). -/
structure MetricsSnapshot where
  queueSize : Int
  queueCapacity : Int
  activeProcessors : Int
  httpRequestsTotal : Int
  httpRequestsFailure : Int
  recentErrorWithin5Min : Bool
deriving DecidableEq, Repr

/-- The component classification and overall status computed by
`CheckHealth`; the uptime, timestamps and message lists are dropped. -/
structure HealthStatus where
  status : OverallStatus
  queueHealth : ComponentHealth
  processorHealth : ComponentHealth
  apiHealth : ComponentHealth
deriving DecidableEq, Repr

/-- `CheckHealth` (part_012, lines 497–568), in source order: queue check,
processor check, API check, recent-error check, each mutating the running
overall status.  Go compares `float64` ratios against the constants
`queueUtilizationCritical = 0.9`, `queueUtilizationWarning = 0.7`,
`errorRateCritical = 0.1`, `errorRateWarning = 0.05`; the embedding uses
the exact cross-multiplied integer comparisons (see the file comment). -/
def CheckHealth (m : MetricsSnapshot) : HealthStatus :=
  let status0 : OverallStatus := .healthy
  let queuePart : ComponentHealth × OverallStatus :=
    if 10 * m.queueSize > 9 * m.queueCapacity then (.critical, .unhealthy)
    else if 10 * m.queueSize > 7 * m.queueCapacity then
      (.warning, if status0 = .healthy then .degraded else status0)
    else (.healthy, status0)
  let processorPart : ComponentHealth × OverallStatus :=
    if m.activeProcessors = 0 then (.critical, .unhealthy)
    else (.healthy, queuePart.2)
  let apiPart : ComponentHealth × OverallStatus :=
    if 0 < m.httpRequestsTotal then
      if 10 * m.httpRequestsFailure > m.httpRequestsTotal then (.critical, .unhealthy)
      else if 20 * m.httpRequestsFailure > m.httpRequestsTotal then
        (.warning, if processorPart.2 = .healthy then .degraded else processorPart.2)
      else (.healthy, processorPart.2)
    else (.unknown, processorPart.2)
  let finalStatus : OverallStatus :=
    if m.recentErrorWithin5Min = true ∧ apiPart.2 = .healthy then .degraded
    else apiPart.2
  { status := finalStatus, queueHealth := queuePart.1,
    processorHealth := processorPart.1, apiHealth := apiPart.1 }

/-- part_012: `maxResponseTimeHistory = 100`. -/
def maxResponseTimeHistory : Nat := 100

/-- `time.Hour` in nanoseconds, the initial `MinResponseTime` of
`NewMetricsCollector` ("Initialize with a high value"). -/
def hourNs : Int := 3600000000000

/-- The response-time slice of the metrics collector: the HTTP counters,
the derived min/max/total/average durations (nanoseconds), and the rolling
`responseTimes` window. -/
structure ResponseTimeMetrics where
  httpRequestsTotal : Int
  httpRequestsSuccess : Int
  httpRequestsFailure : Int
  totalResponseTime : Int
  maxResponseTime : Int
  minResponseTime : Int
  averageResponseTime : Int
  responseTimes : List Int
deriving DecidableEq, Repr

/-- `NewMetricsCollector` (part_012, lines 241–256): counters zero,
`MinResponseTime` initialized to `time.Hour`, empty window. -/
def NewMetricsCollector : ResponseTimeMetrics :=
  { httpRequestsTotal := 0, httpRequestsSuccess := 0, httpRequestsFailure := 0,
    totalResponseTime := 0, maxResponseTime := 0, minResponseTime := hourNs,
    averageResponseTime := 0, responseTimes := [] }

/-- `RecordHTTPRequest` (part_012, lines 368–404): bump the counters, fold
the new sample into total/max/min (`if responseTime < mc.metrics.MinResponseTime
|| mc.metrics.MinResponseTime == 0`), append the sample to the window and
drop the oldest entry when the window exceeds 100, then recompute the
average over the window (`time.Duration` division, i.e. truncating integer
division). -/
def RecordHTTPRequest (mc : ResponseTimeMetrics) (success : Bool) (responseTime : Int) :
    ResponseTimeMetrics :=
  let total := mc.httpRequestsTotal + 1
  let succ1 := if success then mc.httpRequestsSuccess + 1 else mc.httpRequestsSuccess
  let fail1 := if success then mc.httpRequestsFailure else mc.httpRequestsFailure + 1
  let totalRT := mc.totalResponseTime + responseTime
  let maxRT := if responseTime > mc.maxResponseTime then responseTime else mc.maxResponseTime
  let minRT :=
    if responseTime < mc.minResponseTime ∨ mc.minResponseTime = 0 then responseTime
    else mc.minResponseTime
  let window0 := mc.responseTimes ++ [responseTime]
  let window := if maxResponseTimeHistory < window0.length then window0.drop 1 else window0
  let avg :=
    if 0 < window.length then (window.foldl (· + ·) 0) / (window.length : Int)
    else mc.averageResponseTime
  { httpRequestsTotal := total, httpRequestsSuccess := succ1, httpRequestsFailure := fail1,
    totalResponseTime := totalRT, maxResponseTime := maxRT, minResponseTime := minRT,
    averageResponseTime := avg, responseTimes := window }

/-- Fold a sequence of recorded response times into a fresh collector
(successes; the success flag does not influence the response-time fields). -/
def recordAll (samples : List Int) : ResponseTimeMetrics :=
  samples.foldl (fun mc rt => RecordHTTPRequest mc true rt) NewMetricsCollector

/-! ## Retry loop lemmas -/

/-- Trace of the retry loop from index `i ≥ 1` when every attempt fails
with a retryable error and the context is never done: the loop runs its
remaining `fuel` iterations, performing one attempt and one backoff wait of
`RetryDelay * 2^(i-1)` nanoseconds per iteration, and ends in the terminal
`ErrRequestFailed` return carrying the last attempt's error. -/
theorem sendEventWithRetryAux_all_retryable
    (rd : Nat) (send : Nat → Except LangfuseError ingestionResponse)
    (cancelled : Nat → Bool) (e : Nat → LangfuseError)
    (hs : ∀ j, send j = .error (e j))
    (hr : ∀ j, (e j).IsRetryable = true)
    (hc : ∀ j, cancelled j = false) :
    ∀ (f i : Nat) (le : Option LangfuseError) (ds : List Nat) (n : Nat), 1 ≤ i →
      sendEventWithRetryAux rd send cancelled f i le ds n =
        ⟨if f = 0 then .failed le else .failed (some (e (i + f - 1))),
         n + f,
         ds.reverse ++ (List.range f).map fun j => rd * 2 ^ (i - 1 + j)⟩ := by
  intro f
  induction f with
  | zero =>
    intro i le ds n hi
    simp [sendEventWithRetryAux]
  | succ g ih =>
    intro i le ds n hi
    have hi0 : 0 < i := hi
    rw [sendEventWithRetryAux]
    rw [if_neg (by simp [hc])]
    simp only [hs i, hr i, if_pos hi0, if_true]
    rw [ih (i + 1) (some (e i)) (rd * 2 ^ (i - 1) :: ds) (n + 1) (by omega)]
    simp only [RetryTrace.mk.injEq]
    refine ⟨?_, by omega, ?_⟩
    · rcases g with _ | h
      · simp
      · have hidx : i + 1 + (h + 1) - 1 = i + (h + 1 + 1) - 1 := by omega
        simp [hidx]
    · have hfun : (fun j => rd * 2 ^ (i + 1 - 1 + j)) =
          ((fun j => rd * 2 ^ (i - 1 + j)) ∘ Nat.succ) := by
        funext j
        simp only [Function.comp_apply]
        congr 1
        congr 1
        omega
      rw [List.reverse_cons, List.append_assoc, List.singleton_append,
        List.range_succ_eq_map, List.map_cons, List.map_map, hfun]
      simp

/-- The full `sendEventWithRetry` under an always-retryable failing
transport and a live context: `MaxRetries + 1` attempts, the delay list
`[RetryDelay * 2^0, …, RetryDelay * 2^(MaxRetries-1)]`, terminal failure. -/
theorem sendEventWithRetry_all_retryable
    (k rd : Nat) (send : Nat → Except LangfuseError ingestionResponse)
    (cancelled : Nat → Bool) (e : Nat → LangfuseError)
    (hs : ∀ j, send j = .error (e j))
    (hr : ∀ j, (e j).IsRetryable = true)
    (hc : ∀ j, cancelled j = false) :
    sendEventWithRetry k rd send cancelled =
      ⟨.failed (some (e k)), k + 1, (List.range k).map fun j => rd * 2 ^ j⟩ := by
  rw [sendEventWithRetry, sendEventWithRetryAux]
  rw [if_neg (by simp)]
  simp only [hs 0, hr 0, Nat.lt_irrefl, if_false]
  rw [sendEventWithRetryAux_all_retryable rd send cancelled e hs hr hc k 1 (some (e 0)) [] 1
    (le_refl 1)]
  rcases k with _ | k1
  · rfl
  · rw [if_pos trivial]
    simp only [RetryTrace.mk.injEq]
    refine ⟨?_, by omega, ?_⟩
    · have hidx : 1 + (k1 + 1) - 1 = k1 + 1 := by omega
      simp [hidx]
    · have hfun : (fun j => rd * 2 ^ (1 - 1 + j)) = fun j => rd * 2 ^ j := by
        funext j
        simp
      simp [hfun]

/-- C1: with `MaxRetries = k`, every underlying send attempt failing with a
retryable error and the context never done, `sendEventWithRetry` performs
exactly `k + 1` attempts, its backoff delays are monotonically
non-decreasing, and the call returns the terminal failure outcome. -/
theorem C1_retry_exhaustion (k rd : Nat)
    (send : Nat → Except LangfuseError ingestionResponse)
    (cancelled : Nat → Bool) (e : Nat → LangfuseError)
    (hs : ∀ j, send j = .error (e j))
    (hr : ∀ j, (e j).IsRetryable = true)
    (hc : ∀ j, cancelled j = false) :
    (sendEventWithRetry k rd send cancelled).attempts = k + 1 ∧
    (sendEventWithRetry k rd send cancelled).delays.Pairwise (· ≤ ·) ∧
    ∃ err, (sendEventWithRetry k rd send cancelled).outcome = .failed (some err) := by
  rw [sendEventWithRetry_all_retryable k rd send cancelled e hs hr hc]
  refine ⟨rfl, ?_, ⟨e k, rfl⟩⟩
  rw [List.pairwise_map]
  refine (List.pairwise_lt_range k).imp ?_
  intro a b hab
  exact Nat.mul_le_mul_left rd (Nat.pow_le_pow_right (by norm_num) (le_of_lt hab))

/-- Witness for C1 at `MaxRetries = 2`, `RetryDelay = 100`, a transport that
always fails with `ErrConnectionFailed`. -/
theorem C1_retry_exhaustion_witness :
    (sendEventWithRetry 2 100 (fun _ => Except.error ErrConnectionFailed)
        (fun _ => false)).attempts = 2 + 1 ∧
    (sendEventWithRetry 2 100 (fun _ => Except.error ErrConnectionFailed)
        (fun _ => false)).delays.Pairwise (· ≤ ·) ∧
    ∃ err, (sendEventWithRetry 2 100 (fun _ => Except.error ErrConnectionFailed)
        (fun _ => false)).outcome = .failed (some err) :=
  C1_retry_exhaustion 2 100 (fun _ => Except.error ErrConnectionFailed) (fun _ => false)
    (fun _ => ErrConnectionFailed) (fun _ => rfl) (fun _ => rfl) (fun _ => rfl)

/-- Trace of the retry loop from index `i ≥ 1` when attempts up to `m` fail
retryably, the waits before retries `i..m-1` complete, and the context is
done during the wait before retry `m`: the loop aborts inside the backoff
select with the context's error, without attempting retry `m`. -/
theorem sendEventWithRetryAux_cancelled
    (rd : Nat) (send : Nat → Except LangfuseError ingestionResponse)
    (cancelled : Nat → Bool) (e : Nat → LangfuseError) (m : Nat)
    (hsm : ∀ j, j < m → send j = .error (e j) ∧ (e j).IsRetryable = true)
    (hcm : ∀ j, 1 ≤ j → j < m → cancelled j = false)
    (hm : cancelled m = true) :
    ∀ (f i : Nat) (le : Option LangfuseError) (ds : List Nat) (n : Nat),
      1 ≤ i → i ≤ m → m - i < f →
      (sendEventWithRetryAux rd send cancelled f i le ds n).outcome = .ctxCancelled ∧
      (sendEventWithRetryAux rd send cancelled f i le ds n).attempts = n + (m - i) := by
  intro f
  induction f with
  | zero =>
    intro i le ds n h1 h2 h3
    omega
  | succ g ih =>
    intro i le ds n h1 h2 h3
    by_cases him : i = m
    · subst him
      rw [sendEventWithRetryAux, if_pos ⟨h1, hm⟩]
      refine ⟨rfl, ?_⟩
      show n = n + (i - i)
      omega
    · have hlt : i < m := lt_of_le_of_ne h2 him
      obtain ⟨hsi, hri⟩ := hsm i hlt
      rw [sendEventWithRetryAux]
      rw [if_neg (by simp [hcm i h1 hlt])]
      simp only [hsi, hri, if_pos (show 0 < i from h1), if_true]
      obtain ⟨ho, ha⟩ := ih (i + 1) (some (e i)) ((rd * 2 ^ (i - 1)) :: ds) (n + 1)
        (by omega) (by omega) (by omega)
      refine ⟨ho, ?_⟩
      rw [ha]
      omega

/-- Trace of the retry loop from index `i ≥ 1` when attempts before `m` fail
retryably, no wait is interrupted, and attempt `m` fails with a
non-retryable error: the loop breaks right after attempt `m` (no further
attempts) and returns the terminal failure carrying that error. -/
theorem sendEventWithRetryAux_nonretryable
    (rd : Nat) (send : Nat → Except LangfuseError ingestionResponse)
    (cancelled : Nat → Bool) (e : Nat → LangfuseError) (m : Nat)
    (hsm : ∀ j, j < m → send j = .error (e j) ∧ (e j).IsRetryable = true)
    (hc : ∀ j, cancelled j = false)
    (hm : send m = .error (e m)) (hmr : (e m).IsRetryable = false) :
    ∀ (f i : Nat) (le : Option LangfuseError) (ds : List Nat) (n : Nat),
      1 ≤ i → i ≤ m → m - i < f →
      (sendEventWithRetryAux rd send cancelled f i le ds n).outcome =
        .failed (some (e m)) ∧
      (sendEventWithRetryAux rd send cancelled f i le ds n).attempts = n + (m - i) + 1 := by
  intro f
  induction f with
  | zero =>
    intro i le ds n h1 h2 h3
    omega
  | succ g ih =>
    intro i le ds n h1 h2 h3
    by_cases him : i = m
    · subst him
      rw [sendEventWithRetryAux]
      rw [if_neg (by simp [hc])]
      simp only [hm, hmr, if_pos (show 0 < i from h1), if_false, Bool.false_eq_true]
      refine ⟨trivial, ?_⟩
      show n + 1 = n + (i - i) + 1
      omega
    · have hlt : i < m := lt_of_le_of_ne h2 him
      obtain ⟨hsi, hri⟩ := hsm i hlt
      rw [sendEventWithRetryAux]
      rw [if_neg (by simp [hc])]
      simp only [hsi, hri, if_pos (show 0 < i from h1), if_true]
      obtain ⟨ho, ha⟩ := ih (i + 1) (some (e i)) ((rd * 2 ^ (i - 1)) :: ds) (n + 1)
        (by omega) (by omega) (by omega)
      refine ⟨ho, ?_⟩
      rw [ha]
      omega

/-- The retryability of a classified HTTP error, for the status codes the
client can see (`sendEvent` calls `NewHTTPError` only for status ≥ 400):
retryable exactly for 5xx and 429. -/
theorem NewHTTPError_IsRetryable (s : Int) (msg : String) (h : 400 ≤ s) :
    (NewHTTPError s msg).IsRetryable = (decide (500 ≤ s) || decide (s = 429)) := by
  unfold NewHTTPError
  split_ifs with h1 h2 h3 h4 h5 h6 h7 <;>
    simp only [LangfuseError.IsRetryable, LangfuseError.WithStatusCode, ErrAPIUnauthorized,
      ErrAPIForbidden, ErrAPINotFound, ErrAPIRateLimit, ErrAPIServerError] <;>
    omega

/-- C2: a failed attempt is retried only when its error is classified
retryable — network errors are retryable, classified HTTP 5xx and 429
responses are retryable, every other HTTP 4xx is not — and once an attempt
fails with a non-retryable error the loop breaks: no further attempts. -/
theorem C2_retryable_classification :
    (∀ err : LangfuseError, err.type = .network → err.IsRetryable = true) ∧
    (∀ (s : Int) (msg : String), 500 ≤ s → (NewHTTPError s msg).IsRetryable = true) ∧
    (∀ msg : String, (NewHTTPError 429 msg).IsRetryable = true) ∧
    (∀ (s : Int) (msg : String), 400 ≤ s → s < 500 → s ≠ 429 →
      (NewHTTPError s msg).IsRetryable = false) ∧
    (∀ (k rd m : Nat) (send : Nat → Except LangfuseError ingestionResponse)
        (cancelled : Nat → Bool) (e : Nat → LangfuseError),
      m ≤ k →
      (∀ j, j < m → send j = .error (e j) ∧ (e j).IsRetryable = true) →
      (∀ j, cancelled j = false) →
      send m = .error (e m) → (e m).IsRetryable = false →
      (sendEventWithRetry k rd send cancelled).attempts = m + 1 ∧
      (sendEventWithRetry k rd send cancelled).outcome = .failed (some (e m))) := by
  refine ⟨?_, ?_, ?_, ?_, ?_⟩
  · intro err h
    simp [LangfuseError.IsRetryable, h]
  · intro s msg h5
    rw [NewHTTPError_IsRetryable s msg (by omega)]
    simp [h5]
  · intro msg
    rw [NewHTTPError_IsRetryable 429 msg (by norm_num)]
    simp
  · intro s msg h1 h2 h3
    rw [NewHTTPError_IsRetryable s msg h1]
    simp only [Bool.or_eq_false_iff, decide_eq_false_iff_not]
    omega
  · intro k rd m send cancelled e hmk hsm hc hm hmr
    rcases Nat.eq_zero_or_pos m with h0 | hpos
    · subst h0
      rw [sendEventWithRetry, sendEventWithRetryAux]
      rw [if_neg (by simp)]
      simp only [hm, hmr, Bool.false_eq_true, if_false, Nat.lt_irrefl]
      exact ⟨by trivial, by trivial⟩
    · have h1 := hsm 0 hpos
      rw [sendEventWithRetry, sendEventWithRetryAux]
      rw [if_neg (by simp)]
      simp only [h1.1, h1.2, Nat.lt_irrefl, if_false, if_true]
      obtain ⟨ho, ha⟩ := sendEventWithRetryAux_nonretryable rd send cancelled e m hsm hc hm
        hmr k 1 (some (e 0)) [] 1 (le_refl 1) (by omega) (by omega)
      exact ⟨by rw [ha]; omega, ho⟩

/-- Concrete instance of C2: a 404 response is terminal — with
`MaxRetries = 3` and attempt 0 failing retryably, a 404 on attempt 1 stops
the loop after 2 attempts; 503, 429 are retryable, 404 is not. -/
theorem C2_retryable_classification_witness :
    (NewHTTPError 503 "" ).IsRetryable = true ∧
    (NewHTTPError 429 "" ).IsRetryable = true ∧
    (NewHTTPError 404 "" ).IsRetryable = false ∧
    (sendEventWithRetry 3 100
        (fun j => if j = 0 then Except.error ErrConnectionFailed
                  else Except.error (NewHTTPError 404 ""))
        (fun _ => false)).attempts = 1 + 1 := by
  refine ⟨C2_retryable_classification.2.1 503 "" (by norm_num),
    C2_retryable_classification.2.2.1 "",
    C2_retryable_classification.2.2.2.1 404 "" (by norm_num) (by norm_num) (by norm_num), ?_⟩
  exact (C2_retryable_classification.2.2.2.2 3 100 1
    (fun j => if j = 0 then Except.error ErrConnectionFailed
              else Except.error (NewHTTPError 404 ""))
    (fun _ => false)
    (fun j => if j = 0 then ErrConnectionFailed else NewHTTPError 404 "")
    (by norm_num)
    (fun j hj => by interval_cases j <;> exact ⟨rfl, rfl⟩)
    (fun _ => rfl)
    (by norm_num)
    (by decide)).1

/-- C3: under an always-retryable failing transport with a live context,
the backoff delay before retry `i` (1 ≤ i ≤ MaxRetries) is exactly
`RetryDelay * 2^(i-1)`; and when the context becomes done during the wait
before retry `m`, the call returns the context's cancellation outcome at
once, having performed only the `m` earlier attempts — the pending attempt
never happens. -/
theorem C3_backoff_delay_and_cancellation :
    (∀ (k rd : Nat) (send : Nat → Except LangfuseError ingestionResponse)
        (cancelled : Nat → Bool) (e : Nat → LangfuseError),
      (∀ j, send j = .error (e j)) → (∀ j, (e j).IsRetryable = true) →
      (∀ j, cancelled j = false) →
      ∀ i, 1 ≤ i → i ≤ k →
        (sendEventWithRetry k rd send cancelled).delays[i - 1]? =
          some (rd * 2 ^ (i - 1))) ∧
    (∀ (k rd m : Nat) (send : Nat → Except LangfuseError ingestionResponse)
        (cancelled : Nat → Bool) (e : Nat → LangfuseError),
      1 ≤ m → m ≤ k →
      (∀ j, j < m → send j = .error (e j) ∧ (e j).IsRetryable = true) →
      (∀ j, 1 ≤ j → j < m → cancelled j = false) →
      cancelled m = true →
      (sendEventWithRetry k rd send cancelled).outcome = .ctxCancelled ∧
      (sendEventWithRetry k rd send cancelled).attempts = m) := by
  constructor
  · intro k rd send cancelled e hs hr hc i h1 h2
    rw [sendEventWithRetry_all_retryable k rd send cancelled e hs hr hc]
    show (List.map (fun j => rd * 2 ^ j) (List.range k))[i - 1]? = _
    rw [List.getElem?_map, List.getElem?_range (by omega)]
    rfl
  · intro k rd m send cancelled e h1m hmk hsm hcm hm
    have h0 := hsm 0 (by omega)
    rw [sendEventWithRetry, sendEventWithRetryAux]
    rw [if_neg (by simp)]
    simp only [h0.1, h0.2, Nat.lt_irrefl, if_false, if_true]
    obtain ⟨ho, ha⟩ := sendEventWithRetryAux_cancelled rd send cancelled e m hsm hcm hm
      k 1 (some (e 0)) [] 1 (le_refl 1) h1m (by omega)
    exact ⟨ho, by rw [ha]; omega⟩

/-- Concrete instance of C3: with `RetryDelay = 100` the delay before retry
2 is 200; and a context done during the wait before retry 2 yields the
cancellation outcome after exactly 2 attempts. -/
theorem C3_backoff_delay_and_cancellation_witness :
    (sendEventWithRetry 3 100 (fun _ => Except.error ErrConnectionFailed)
        (fun _ => false)).delays[2 - 1]? = some (100 * 2 ^ (2 - 1)) ∧
    (sendEventWithRetry 3 100 (fun _ => Except.error ErrConnectionFailed)
        (fun j => decide (j = 2))).outcome = .ctxCancelled ∧
    (sendEventWithRetry 3 100 (fun _ => Except.error ErrConnectionFailed)
        (fun j => decide (j = 2))).attempts = 2 := by
  refine ⟨?_, ?_⟩
  · exact C3_backoff_delay_and_cancellation.1 3 100 _ _ (fun _ => ErrConnectionFailed)
      (fun _ => rfl) (fun _ => rfl) (fun _ => rfl) 2 (by norm_num) (by norm_num)
  · exact C3_backoff_delay_and_cancellation.2 3 100 2 _ _
      (fun _ => ErrConnectionFailed) (by norm_num) (by norm_num)
      (fun j hj => ⟨rfl, rfl⟩)
      (fun j hj1 hj2 => by
        have hj : j = 1 := by omega
        subst hj
        rfl)
      (by decide)

/-- Every context group produced by `groupByCtx` is non-empty and no larger
than the batch it partitions. -/
theorem groupByCtx_sizes (batch : List EventChanItem) :
    ∀ g ∈ groupByCtx batch, 1 ≤ g.2.length ∧ g.2.length ≤ batch.length := by
  intro g hg
  rw [groupByCtx] at hg
  obtain ⟨c, hc, rfl⟩ := List.mem_map.mp hg
  constructor
  · have hc2 : c ∈ batch.map EventChanItem.ctx := List.mem_dedup.mp hc
    obtain ⟨it, hit, hitc⟩ := List.mem_map.mp hc2
    have hmem : it ∈ batch.filter (fun x => x.ctx == c) :=
      List.mem_filter.mpr ⟨hit, by simp [hitc]⟩
    have hne : batch.filter (fun x => x.ctx == c) ≠ [] := List.ne_nil_of_mem hmem
    simp only [List.length_map]
    exact List.length_pos.mpr hne
  · simp only [List.length_map]
    exact List.length_filter_le _ _

/-- Every batch emitted by `flushBatch` for a pending list of at most
`BatchSize` events has between 1 and `BatchSize` events. -/
theorem flushBatchSends_sizes (batchSize : Nat) (batch : List EventChanItem)
    (hle : batch.length ≤ batchSize) :
    ∀ g ∈ flushBatchSends batch, 1 ≤ g.2.length ∧ g.2.length ≤ batchSize := by
  intro g hg
  rw [flushBatchSends] at hg
  split at hg
  · simp at hg
  · obtain ⟨h1, h2⟩ := groupByCtx_sizes batch g hg
    exact ⟨h1, le_trans h2 hle⟩

/-- Invariant of the worker loop: starting from a pending list shorter than
`BatchSize`, every batch handed to `sendBatch` has between 1 and
`BatchSize` events. -/
theorem processBatchesRun_bounds (batchSize : Nat) (h1 : 1 ≤ batchSize) :
    ∀ (steps : List WorkerStep) (batch : List EventChanItem),
      batch.length < batchSize →
      ∀ g ∈ processBatchesRun batchSize steps batch,
        1 ≤ g.2.length ∧ g.2.length ≤ batchSize := by
  intro steps
  induction steps with
  | nil =>
    intro batch hb g hg
    simp [processBatchesRun] at hg
  | cons step rest ih =>
    intro batch hb g hg
    cases step with
    | item it =>
      simp only [processBatchesRun] at hg
      by_cases hflush : batchSize ≤ (batch ++ [it]).length
      · rw [if_pos hflush] at hg
        rcases List.mem_append.mp hg with hmem | hmem
        · refine flushBatchSends_sizes batchSize (batch ++ [it]) ?_ g hmem
          simp only [List.length_append, List.length_singleton]
          omega
        · exact ih [] (by simpa using h1) g hmem
      · rw [if_neg hflush] at hg
        exact ih (batch ++ [it]) (by omega) g hg
    | tick =>
      simp only [processBatchesRun] at hg
      rcases List.mem_append.mp hg with hmem | hmem
      · exact flushBatchSends_sizes batchSize batch (le_of_lt hb) g hmem
      · exact ih [] (by simpa using h1) g hmem
    | chanDrained =>
      simp only [processBatchesRun] at hg
      exact flushBatchSends_sizes batchSize batch (le_of_lt hb) g hg
    | stop =>
      simp only [processBatchesRun] at hg
      exact flushBatchSends_sizes batchSize batch (le_of_lt hb) g hg

/-- C4: in every run of a batch processor with `BatchSize ≥ 1`, every batch
handed to the client's `SendBatch` holds at least 1 and at most `BatchSize`
events. -/
theorem C4_batch_size_bounds (batchSize : Nat) (h1 : 1 ≤ batchSize)
    (steps : List WorkerStep) (g : Nat × List LangfuseEvent)
    (hg : g ∈ processBatchesRun batchSize steps []) :
    1 ≤ g.2.length ∧ g.2.length ≤ batchSize :=
  processBatchesRun_bounds batchSize h1 steps [] (by simpa using h1) g hg

/-- Concrete instance of C4: `BatchSize = 2`, two events on one context
followed by the stop signal — the one emitted batch holds both events. -/
theorem C4_batch_size_bounds_witness :
    1 ≤ ((0, [LangfuseEvent.traceEvent 1, LangfuseEvent.traceEvent 2]) :
        Nat × List LangfuseEvent).2.length ∧
    ((0, [LangfuseEvent.traceEvent 1, LangfuseEvent.traceEvent 2]) :
        Nat × List LangfuseEvent).2.length ≤ 2 :=
  C4_batch_size_bounds 2 (by norm_num)
    [WorkerStep.item ⟨0, .traceEvent 1⟩, WorkerStep.item ⟨0, .traceEvent 2⟩, WorkerStep.stop]
    (0, [LangfuseEvent.traceEvent 1, LangfuseEvent.traceEvent 2]) (by decide)

/-- The fallback loop calls `Send` once per event of the failed batch,
whatever the individual results are. -/
theorem fallbackLoop_eq_map (clientSend : LangfuseEvent → Option LangfuseError) :
    ∀ events, fallbackLoop clientSend events = events.map ClientCall.sendCall := by
  intro events
  induction events with
  | nil => rfl
  | cons ev rest ih => simp [fallbackLoop, ih]

/-- C5: when the client's `SendBatch` for a flushed batch returns an error,
the service sends every event of that batch individually via `Send`; the
list of calls is one `SendBatch` followed by one `Send` per event, every
event of the batch gets its individual attempt, and that list does not
depend on the individual sends' results (one failing event cannot prevent
the others' attempts). -/
theorem C5_fallback_isolation
    (clientSendBatch : List LangfuseEvent → Option LangfuseError)
    (clientSend clientSend2 : LangfuseEvent → Option LangfuseError)
    (events : List LangfuseEvent) (err : LangfuseError)
    (hfail : clientSendBatch events = some err) :
    serviceSendBatch clientSendBatch clientSend events =
      ClientCall.sendBatchCall events :: events.map ClientCall.sendCall ∧
    (∀ ev ∈ events,
      ClientCall.sendCall ev ∈ serviceSendBatch clientSendBatch clientSend events) ∧
    serviceSendBatch clientSendBatch clientSend events =
      serviceSendBatch clientSendBatch clientSend2 events := by
  have h1 : serviceSendBatch clientSendBatch clientSend events =
      ClientCall.sendBatchCall events :: events.map ClientCall.sendCall := by
    rw [serviceSendBatch, hfail, fallbackLoop_eq_map]
  refine ⟨h1, ?_, ?_⟩
  · intro ev hev
    rw [h1]
    exact List.mem_cons_of_mem _ (List.mem_map_of_mem _ hev)
  · rw [h1, serviceSendBatch, hfail, fallbackLoop_eq_map]

/-- Concrete instance of C5: a two-event batch whose `SendBatch` fails; one
of the two individual sends fails too, yet both events get their `Send`
call, and the call list equals the one under an all-successful client. -/
theorem C5_fallback_isolation_witness :
    serviceSendBatch (fun _ => some ErrBatchProcessing)
        (fun ev => if ev = LangfuseEvent.traceEvent 1 then some ErrConnectionFailed else none)
        [LangfuseEvent.traceEvent 1, LangfuseEvent.spanEvent 2] =
      ClientCall.sendBatchCall [LangfuseEvent.traceEvent 1, LangfuseEvent.spanEvent 2] ::
        [LangfuseEvent.traceEvent 1, LangfuseEvent.spanEvent 2].map ClientCall.sendCall ∧
    (∀ ev ∈ [LangfuseEvent.traceEvent 1, LangfuseEvent.spanEvent 2],
      ClientCall.sendCall ev ∈
        serviceSendBatch (fun _ => some ErrBatchProcessing)
          (fun ev => if ev = LangfuseEvent.traceEvent 1 then some ErrConnectionFailed else none)
          [LangfuseEvent.traceEvent 1, LangfuseEvent.spanEvent 2]) ∧
    serviceSendBatch (fun _ => some ErrBatchProcessing)
        (fun ev => if ev = LangfuseEvent.traceEvent 1 then some ErrConnectionFailed else none)
        [LangfuseEvent.traceEvent 1, LangfuseEvent.spanEvent 2] =
      serviceSendBatch (fun _ => some ErrBatchProcessing) (fun _ => none)
        [LangfuseEvent.traceEvent 1, LangfuseEvent.spanEvent 2] :=
  C5_fallback_isolation (fun _ => some ErrBatchProcessing)
    (fun ev => if ev = LangfuseEvent.traceEvent 1 then some ErrConnectionFailed else none)
    (fun _ => none)
    [LangfuseEvent.traceEvent 1, LangfuseEvent.spanEvent 2] ErrBatchProcessing rfl

/-- C6 (the code violates the graceful-drain property): one event is
enqueued, `Stop` is called with an unconstrained deadline, and the
scheduler resolves the worker's `select` to the `stopChannel` case — a
choice Go's `select` semantics permit whenever `stopChannel` is closed.
The worker flushes its (empty) pending batch and exits, `wg.Wait`
releases, and `Stop` returns `nil` while the enqueued event is still
sitting in the channel buffer, never handed to any client send call. -/
theorem C6_stop_drops_queued_event :
    serviceRun 10
      [ServiceAct.addEvent (.traceEvent 7), ServiceAct.callStop, ServiceAct.workerStop,
        ServiceAct.stopReturn] initialService =
      StepResult.ok
        { queue := [.traceEvent 7], chanClosed := true, stopClosed := true,
          workerBatch := [], workerDone := true, attempted := [],
          stopReturnedNil := true } := by
  rfl

/-- C7 counterexample: an event whose variant is none of the four known
kinds (type tag "unknown") is NOT rejected by `AddEvent` — `AddEvent`
appends it to the queue unconditionally. -/
theorem C7_unknown_event_is_queued :
    getEventType (LangfuseEvent.unknownEvent 0) = "unknown" ∧
    AddEvent [] (LangfuseEvent.unknownEvent 0) = [LangfuseEvent.unknownEvent 0] :=
  ⟨rfl, rfl⟩

/-- The `SendBatch` validation loop flags a batch that contains an
unknown-typed event: it returns some error (the first failure in event
order), never `none`. -/
theorem validateEvents_unknown_mem (vOk : LangfuseEvent → Bool) :
    ∀ (evs : List LangfuseEvent) (ev : LangfuseEvent), ev ∈ evs →
      getEventType ev = "unknown" → ∃ err, validateEvents vOk evs = some err := by
  intro evs
  induction evs with
  | nil =>
    intro ev h
    simp at h
  | cons p rest ih =>
    intro ev hmem hev
    rw [validateEvents]
    by_cases hp : getEventType p = "unknown"
    · rw [if_pos hp]
      exact ⟨_, rfl⟩
    · rw [if_neg hp]
      by_cases hv : vOk p = false
      · rw [if_pos hv]
        exact ⟨_, rfl⟩
      · rw [if_neg hv]
        rcases List.mem_cons.mp hmem with rfl | hmem2
        · exact absurd hev hp
        · exact ih ev hmem2 hev

/-- When every event preceding the unknown one passes its checks, the
`SendBatch` validation loop stops at the unknown event and returns
`ErrUnknownEventType`. -/
theorem validateEvents_clean_prefix (vOk : LangfuseEvent → Bool) :
    ∀ (pre : List LangfuseEvent) (ev : LangfuseEvent),
      (∀ p ∈ pre, getEventType p ≠ "unknown" ∧ vOk p = true) →
      getEventType ev = "unknown" →
      validateEvents vOk (pre ++ [ev]) = some ErrUnknownEventType := by
  intro pre
  induction pre with
  | nil =>
    intro ev hpre hev
    simp [validateEvents, hev]
  | cons p rest ih =>
    intro ev hpre hev
    obtain ⟨hp1, hp2⟩ := hpre p (List.mem_cons_self p rest)
    rw [List.cons_append, validateEvents, if_neg hp1, if_neg (by simp [hp2])]
    exact ih ev (fun q hq => hpre q (List.mem_cons_of_mem p hq)) hev

/-- C7 amended: an unknown-variant event is accepted by `AddEvent` and
placed in the queue; the rejection happens later, at send time — the
client's `Send` returns `ErrUnknownEventType` for it before any transport
attempt, and the client's `SendBatch` validates every event before
sending: a batch containing the unknown event whose preceding events pass
their checks is rejected with `ErrUnknownEventType`, and any batch
containing the unknown event is rejected before any transport attempt. -/
theorem C7_unknown_rejected_at_send (queue : List LangfuseEvent) (ev : LangfuseEvent)
    (urlEmpty : Bool) (validationOk : Bool) (batchValidationOk : LangfuseEvent → Bool)
    (pre : List LangfuseEvent)
    (hev : getEventType ev = "unknown") (hurl : urlEmpty = false)
    (hpre : ∀ p ∈ pre, getEventType p ≠ "unknown" ∧ batchValidationOk p = true) :
    AddEvent queue ev = queue ++ [ev] ∧
    clientSendChecks urlEmpty ev validationOk = some ErrUnknownEventType ∧
    clientSendBatchChecks urlEmpty batchValidationOk (pre ++ [ev]) =
      SendBatchCheckResult.rejected ErrUnknownEventType ∧
    (∀ evs : List LangfuseEvent, ev ∈ evs →
      ∃ err, clientSendBatchChecks urlEmpty batchValidationOk evs =
        SendBatchCheckResult.rejected err) := by
  subst hurl
  refine ⟨rfl, ?_, ?_, ?_⟩
  · rw [clientSendChecks, if_neg (by simp), if_pos hev]
  · rw [clientSendBatchChecks, if_neg (by simp), if_neg (by simp),
      validateEvents_clean_prefix batchValidationOk pre ev hpre hev]
  · intro evs hmem
    obtain ⟨err, herr⟩ := validateEvents_unknown_mem batchValidationOk evs ev hmem hev
    rw [clientSendBatchChecks, if_neg (by simp), if_neg (List.ne_nil_of_mem hmem), herr]
    exact ⟨err, rfl⟩

/-- Concrete instance of the amended C7: the unknown event is queued by
`AddEvent`; `Send` rejects it, and `SendBatch` rejects both the two-event
batch holding it and every batch containing it, before any transport. -/
theorem C7_unknown_rejected_at_send_witness :
    AddEvent [] (LangfuseEvent.unknownEvent 0) = [] ++ [LangfuseEvent.unknownEvent 0] ∧
    clientSendChecks false (LangfuseEvent.unknownEvent 0) true =
      some ErrUnknownEventType ∧
    clientSendBatchChecks false (fun _ => true)
        ([LangfuseEvent.traceEvent 1] ++ [LangfuseEvent.unknownEvent 0]) =
      SendBatchCheckResult.rejected ErrUnknownEventType ∧
    (∀ evs : List LangfuseEvent, LangfuseEvent.unknownEvent 0 ∈ evs →
      ∃ err, clientSendBatchChecks false (fun _ => true) evs =
        SendBatchCheckResult.rejected err) :=
  C7_unknown_rejected_at_send [] (LangfuseEvent.unknownEvent 0) false true (fun _ => true)
    [LangfuseEvent.traceEvent 1] rfl rfl (by decide)

/-- C8: `CheckHealth` classifies each component by the fixed thresholds —
queue critical above 90% utilization, warning above 70%; API critical above
a 10% failure rate, warning above 5%, unknown with zero requests; processor
critical exactly at zero active processors — and the overall status is
unhealthy exactly when some component is critical, degraded exactly when no
component is critical but some warning (queue, API, or an error within the
last 5 minutes) exists. -/
theorem C8_check_health_classification (m : MetricsSnapshot) :
    (CheckHealth m).queueHealth =
      (if 10 * m.queueSize > 9 * m.queueCapacity then ComponentHealth.critical
       else if 10 * m.queueSize > 7 * m.queueCapacity then ComponentHealth.warning
       else ComponentHealth.healthy) ∧
    (CheckHealth m).apiHealth =
      (if 0 < m.httpRequestsTotal then
        if 10 * m.httpRequestsFailure > m.httpRequestsTotal then ComponentHealth.critical
        else if 20 * m.httpRequestsFailure > m.httpRequestsTotal then ComponentHealth.warning
        else ComponentHealth.healthy
       else ComponentHealth.unknown) ∧
    ((CheckHealth m).processorHealth = ComponentHealth.critical ↔ m.activeProcessors = 0) ∧
    ((CheckHealth m).status = OverallStatus.unhealthy ↔
      ((CheckHealth m).queueHealth = ComponentHealth.critical ∨
        (CheckHealth m).processorHealth = ComponentHealth.critical ∨
        (CheckHealth m).apiHealth = ComponentHealth.critical)) ∧
    ((CheckHealth m).status = OverallStatus.degraded ↔
      (¬((CheckHealth m).queueHealth = ComponentHealth.critical ∨
          (CheckHealth m).processorHealth = ComponentHealth.critical ∨
          (CheckHealth m).apiHealth = ComponentHealth.critical) ∧
        ((CheckHealth m).queueHealth = ComponentHealth.warning ∨
          (CheckHealth m).apiHealth = ComponentHealth.warning ∨
          m.recentErrorWithin5Min = true))) := by
  by_cases hq1 : 10 * m.queueSize > 9 * m.queueCapacity <;>
    by_cases hq2 : 10 * m.queueSize > 7 * m.queueCapacity <;>
    by_cases hp : m.activeProcessors = 0 <;>
    by_cases ht : 0 < m.httpRequestsTotal <;>
    by_cases ha1 : 10 * m.httpRequestsFailure > m.httpRequestsTotal <;>
    by_cases ha2 : 20 * m.httpRequestsFailure > m.httpRequestsTotal <;>
    by_cases hre : m.recentErrorWithin5Min = true <;>
    simp [CheckHealth, hq1, hq2, hp, ht, ha1, ha2, hre]

/-- C9 (the code violates the min/rolling-window property on the minimum):
the `MinResponseTime` tracking starts from the constant `time.Hour`, so a
single recorded request of 2 hours leaves `MinResponseTime` at 1 hour — a
value never observed — while the minimum of the recorded samples is
2 hours.  This contradicts the field's own documentation ("the minimum
response time observed for any HTTP request to the API"). -/
theorem C9_min_response_time_initialization_bug :
    (recordAll [2 * hourNs]).responseTimes = [2 * hourNs] ∧
    (recordAll [2 * hourNs]).minResponseTime = hourNs ∧
    (recordAll [2 * hourNs]).minResponseTime ≠ 2 * hourNs := by
  refine ⟨?_, ?_, ?_⟩ <;> decide

/-- Helper for C10: no service step ever re-opens the event channel — once
`chanClosed` holds, it holds in every successor state. -/
theorem serviceStep_chanClosed_mono (batchSize : Nat) (s1 s2 : ServiceState)
    (a : ServiceAct) (hcl : s1.chanClosed = true)
    (hstep : serviceStep batchSize s1 a = .ok s2) : s2.chanClosed = true := by
  cases a with
  | addEvent ev => simp [serviceStep, hcl] at hstep
  | callStop => simp [serviceStep, hcl] at hstep
  | workerRecv =>
    simp only [serviceStep] at hstep
    split at hstep
    · cases hstep
    · split at hstep
      · cases hstep
      · split at hstep
        · cases hstep
          exact hcl
        · cases hstep
          exact hcl
  | workerRecvClosed =>
    simp only [serviceStep] at hstep
    split at hstep
    · cases hstep
      exact hcl
    · cases hstep
  | workerTick =>
    simp only [serviceStep] at hstep
    split at hstep
    · cases hstep
    · cases hstep
      exact hcl
  | workerStop =>
    simp only [serviceStep] at hstep
    split at hstep
    · cases hstep
      exact hcl
    · cases hstep
  | stopReturn =>
    simp only [serviceStep] at hstep
    split at hstep
    · cases hstep
      exact hcl
    · cases hstep

/-- C10: `Stop` closes the stop channel and the event channel; `AddEvent`
performs an unguarded send on the event channel, and a send on a closed
channel panics.  So on a service where `Stop` has run, the very next
`AddEvent` panics; and since no step re-opens the channel, the same holds
for every later `AddEvent` — there is no guard turning it into an error
return or a no-op. -/
theorem C10_addEvent_after_stop_panics (batchSize : Nat) (s : ServiceState)
    (ev : LangfuseEvent) (hstop : s.stopClosed = false) (hchan : s.chanClosed = false) :
    serviceRun batchSize [ServiceAct.callStop, ServiceAct.addEvent ev] s =
      StepResult.panicked ∧
    (∀ (s1 s2 : ServiceState) (a : ServiceAct), s1.chanClosed = true →
      serviceStep batchSize s1 a = .ok s2 → s2.chanClosed = true) ∧
    (∀ s1 : ServiceState, s1.chanClosed = true →
      serviceStep batchSize s1 (ServiceAct.addEvent ev) = StepResult.panicked) := by
  refine ⟨?_, ?_, ?_⟩
  · simp [serviceRun, serviceStep, hstop, hchan]
  · intro s1 s2 a hcl hstep
    exact serviceStep_chanClosed_mono batchSize s1 s2 a hcl hstep
  · intro s1 hcl
    simp [serviceStep, hcl]

/-- Concrete instance of C10: `AddEvent` right after `Stop` on a fresh
service panics. -/
theorem C10_addEvent_after_stop_panics_witness :
    serviceRun 10 [ServiceAct.callStop, ServiceAct.addEvent (.traceEvent 1)]
        initialService = StepResult.panicked ∧
    (∀ (s1 s2 : ServiceState) (a : ServiceAct), s1.chanClosed = true →
      serviceStep 10 s1 a = .ok s2 → s2.chanClosed = true) ∧
    (∀ s1 : ServiceState, s1.chanClosed = true →
      serviceStep 10 s1 (ServiceAct.addEvent (.traceEvent 1)) = StepResult.panicked) :=
  C10_addEvent_after_stop_panics 10 initialService (.traceEvent 1) rfl rfl

end GoLangfuse
